import Mathlib

/-!
# Verification of the UHTP Python viewer core

Shallow embedding of the UHTP viewer (`src/python/src`): the UDP wire codec
(`network/protocol.py`), the non-blocking receiver (`network/udp_receiver.py`),
and the trial detector / metrics engine (`main.py`, `data/hdf5_writer.py`,
`data/csv_writer.py`).

Modelling conventions:
* Byte strings are `List Nat` (each entry one byte); multi-byte fields are
  read and written little-endian, exactly as `struct` with format
  `'<dddddddII'` does.
* The seven `Float64` fields are modelled at the codec boundary by their
  IEEE-754 bit patterns (a `Nat` below `2^64`): `struct.pack`/`unpack` move
  these 8 bytes verbatim, so the codec never inspects the float value.
* In the metrics layer the same fields are exact rationals (`ℚ`), the
  real-number semantics of the spec's arithmetic.  RMSE values are carried as
  their squares (`msq_*` fields): the source stores
  `sqrt(mean(err^2))`, and `sqrt` is the unique nonnegative square root, so
  the mean-square determines the source's value exactly.
* File-system side effects (HDF5 groups, CSV rows) are modelled as in-memory
  records held by the writer state, plus an ordered event trace for the calls
  a processing step makes on the writers.
-/

set_option maxHeartbeats 1000000
set_option maxRecDepth 4096

namespace UHTP

/-- Task state enumeration (`protocol.py`, class `TaskState`). -/
inductive TaskState where
  | IDLE
  | RUNNING
  | PAUSED
  | COMPLETED
  | FAILED
deriving DecidableEq, Repr

/-- Ordinal of a task state, as `int(task_state)` on the Python `IntEnum`. -/
def taskStateToNat : TaskState → Nat
  | .IDLE => 0
  | .RUNNING => 1
  | .PAUSED => 2
  | .COMPLETED => 3
  | .FAILED => 4

/-- The `TaskState(v)` on the Python `IntEnum`: defined for ordinals 0–4, raises
(`none`) otherwise. -/
def taskStateOfNat (n : Nat) : Option TaskState :=
  if n = 0 then some .IDLE
  else if n = 1 then some .RUNNING
  else if n = 2 then some .PAUSED
  else if n = 3 then some .COMPLETED
  else if n = 4 then some .FAILED
  else none

/-- The `UDPMessage` dataclass (`protocol.py`), generic over the scalar type
used for the seven `Float64` fields: `Nat` bit patterns at the codec boundary,
`ℚ` in the metrics layer. -/
structure TelemetryG (α : Type) where
  timestamp_us : α
  cursor_x : α
  cursor_y : α
  cursor_vx : α
  cursor_vy : α
  target_x : α
  target_y : α
  task_state : TaskState
  trial_number : Nat
deriving DecidableEq, Repr

/-- Wire-level message: float fields are IEEE-754 bit patterns. -/
abbrev UDPMessage := TelemetryG Nat

/-- Metrics-level message: float fields are exact rationals. -/
abbrev MsgQ := TelemetryG ℚ

/-- The `MESSAGE_SIZE` (`protocol.py`). -/
def MESSAGE_SIZE : Nat := 64

/-- Little-endian serialization of `n` into `w` bytes (what `struct.pack`
does for an unsigned field of width `w`, and byte-wise for a double's bit
pattern). -/
def natToLE : Nat → Nat → List Nat
  | 0, _ => []
  | w + 1, n => n % 256 :: natToLE w (n / 256)

/-- Little-endian deserialization of a byte list (what `struct.unpack` does
for an unsigned field, and for a double's bit pattern). -/
def leToNat : List Nat → Nat
  | [] => 0
  | b :: bs => b + 256 * leToNat bs

/-- Read a `w`-byte little-endian unsigned value at byte offset `off`. -/
def readLE (off w : Nat) (data : List Nat) : Nat :=
  leToNat ((data.drop off).take w)

/-- Decode failure taxonomy.  `UDPMessage.from_bytes` signals both failures by
returning `None`; the two tags name its two distinct failure branches (the
length guard and the `TaskState(values[7])` `ValueError`). -/
inductive DecodeError where
  | TooShort
  | InvalidEnum
deriving DecidableEq, Repr

/-- The `UDPMessage.from_bytes` (`protocol.py` lines 48–68), with the two `None`
branches tagged by their cause.  `struct.unpack` parses
`data[:MESSAGE_SIZE]` sequentially: seven little-endian doubles, then two
little-endian `uint32`; `TaskState(values[7])` then validates the ordinal. -/
def from_bytesE (data : List Nat) : Except DecodeError UDPMessage :=
  if data.length < MESSAGE_SIZE then .error .TooShort
  else
    let frame := data.take MESSAGE_SIZE
    let t_us := leToNat (frame.take 8)
    let r1 := frame.drop 8
    let cx := leToNat (r1.take 8)
    let r2 := r1.drop 8
    let cy := leToNat (r2.take 8)
    let r3 := r2.drop 8
    let vx := leToNat (r3.take 8)
    let r4 := r3.drop 8
    let vy := leToNat (r4.take 8)
    let r5 := r4.drop 8
    let tx := leToNat (r5.take 8)
    let r6 := r5.drop 8
    let ty := leToNat (r6.take 8)
    let r7 := r6.drop 8
    let ordinal := leToNat (r7.take 4)
    let r8 := r7.drop 4
    let trial := leToNat (r8.take 4)
    match taskStateOfNat ordinal with
    | none => .error .InvalidEnum
    | some ts =>
        .ok { timestamp_us := t_us, cursor_x := cx, cursor_y := cy,
              cursor_vx := vx, cursor_vy := vy, target_x := tx, target_y := ty,
              task_state := ts, trial_number := trial }

/-- The `UDPMessage.from_bytes` as the source has it: `Optional[UDPMessage]`,
`None` on any failure. -/
def from_bytes (data : List Nat) : Option UDPMessage :=
  (from_bytesE data).toOption

/-- The `UDPMessage.to_bytes` (`protocol.py` lines 70–83):
`struct.pack('<dddddddII', ...)`. -/
def to_bytes (m : UDPMessage) : List Nat :=
  natToLE 8 m.timestamp_us ++ natToLE 8 m.cursor_x ++ natToLE 8 m.cursor_y ++
  natToLE 8 m.cursor_vx ++ natToLE 8 m.cursor_vy ++ natToLE 8 m.target_x ++
  natToLE 8 m.target_y ++ natToLE 4 (taskStateToNat m.task_state) ++
  natToLE 4 m.trial_number

/-- A message `struct.pack` accepts: every double bit pattern fits 64 bits and
the trial number fits an unsigned 32-bit field. -/
def TelemetryG.Valid (m : UDPMessage) : Prop :=
  m.timestamp_us < 2 ^ 64 ∧ m.cursor_x < 2 ^ 64 ∧ m.cursor_y < 2 ^ 64 ∧
  m.cursor_vx < 2 ^ 64 ∧ m.cursor_vy < 2 ^ 64 ∧ m.target_x < 2 ^ 64 ∧
  m.target_y < 2 ^ 64 ∧ m.trial_number < 2 ^ 32

instance (m : UDPMessage) : Decidable m.Valid := by
  unfold TelemetryG.Valid
  infer_instance

theorem natToLE_length (w n : Nat) : (natToLE w n).length = w := by
  induction w generalizing n with
  | zero => rfl
  | succ w ih => simp [natToLE, ih]

theorem leToNat_natToLE (w n : Nat) (h : n < 256 ^ w) :
    leToNat (natToLE w n) = n := by
  induction w generalizing n with
  | zero => simp at h; simp [natToLE, leToNat, h]
  | succ w ih =>
      have hdiv : n / 256 < 256 ^ w := by
        rw [Nat.div_lt_iff_lt_mul (by norm_num)]
        calc n < 256 ^ (w + 1) := h
        _ = 256 ^ w * 256 := by ring
      simp [natToLE, leToNat, ih _ hdiv]
      omega

theorem take_natToLE (w n : Nat) (l : List Nat) :
    (natToLE w n ++ l).take w = natToLE w n := by
  have h := List.take_left (natToLE w n) l
  rwa [natToLE_length] at h

theorem drop_natToLE (w n : Nat) (l : List Nat) :
    (natToLE w n ++ l).drop w = l := by
  have h := List.drop_left (natToLE w n) l
  rwa [natToLE_length] at h

theorem take_natToLE_self (w n : Nat) : (natToLE w n).take w = natToLE w n :=
  List.take_of_length_le (le_of_eq (natToLE_length w n))

theorem to_bytes_length (m : UDPMessage) : (to_bytes m).length = 64 := by
  simp [to_bytes, natToLE_length]

theorem taskStateOfNat_toNat (ts : TaskState) :
    taskStateOfNat (taskStateToNat ts) = some ts := by
  cases ts <;> rfl

theorem taskStateOfNat_ge5 (n : Nat) (h : 5 ≤ n) : taskStateOfNat n = none := by
  unfold taskStateOfNat
  rw [if_neg (by omega), if_neg (by omega), if_neg (by omega),
    if_neg (by omega), if_neg (by omega)]

theorem taskStateOfNat_lt5 (n : Nat) (h : n < 5) :
    ∃ ts, taskStateOfNat n = some ts := by
  interval_cases n <;> exact ⟨_, rfl⟩

theorem from_bytes_roundtrip (m : UDPMessage) (h : m.Valid) :
    from_bytesE (to_bytes m) = .ok m := by
  obtain ⟨h1, h2, h3, h4, h5, h6, h7, h9⟩ := h
  have h8 : taskStateToNat m.task_state < 2 ^ 32 := by
    cases m.task_state <;> simp [taskStateToNat]
  rw [from_bytesE, if_neg (by rw [to_bytes_length]; decide)]
  rw [show (to_bytes m).take MESSAGE_SIZE = to_bytes m from
    List.take_of_length_le (by rw [to_bytes_length]; decide)]
  simp only [to_bytes, List.append_assoc, take_natToLE, drop_natToLE,
    take_natToLE_self]
  rw [leToNat_natToLE 8 _ h1, leToNat_natToLE 8 _ h2, leToNat_natToLE 8 _ h3,
    leToNat_natToLE 8 _ h4, leToNat_natToLE 8 _ h5, leToNat_natToLE 8 _ h6,
    leToNat_natToLE 8 _ h7, leToNat_natToLE 4 _ h8, leToNat_natToLE 4 _ h9,
    taskStateOfNat_toNat]

theorem from_bytes_to_bytes (m : UDPMessage) (h : m.Valid) :
    from_bytes (to_bytes m) = some m := by
  rw [from_bytes, from_bytes_roundtrip m h]
  rfl

/-- C2: for every valid `TelemetryMessage m`, `encode(m)` produces exactly 64
bytes and `decode(encode(m)) == m`: the round-trip law over the little-endian
7-double + 2-uint32 layout. -/
theorem C2_encode_decode_roundtrip (m : UDPMessage) (h : m.Valid) :
    (to_bytes m).length = 64 ∧ from_bytes (to_bytes m) = some m :=
  ⟨to_bytes_length m, from_bytes_to_bytes m h⟩

/-- Witness for C2 at a concrete message. -/
theorem C2_encode_decode_roundtrip_witness :
    let m : UDPMessage :=
      { timestamp_us := 4617315517961601024, cursor_x := 1, cursor_y := 2,
        cursor_vx := 3, cursor_vy := 4, target_x := 5, target_y := 6,
        task_state := .RUNNING, trial_number := 7 }
    m.Valid ∧ (to_bytes m).length = 64 ∧ from_bytes (to_bytes m) = some m :=
  ⟨by decide, C2_encode_decode_roundtrip _ (by decide)⟩

/-- C5: decoding fewer than 64 bytes always fails, through the length-guard
branch (`TooShort`): `from_bytes` returns `None` without reading any byte. -/
theorem C5_decode_too_short (data : List Nat) (h : data.length < 64) :
    from_bytesE data = .error .TooShort ∧ from_bytes data = none := by
  have : from_bytesE data = .error .TooShort := by
    rw [from_bytesE, if_pos (show data.length < MESSAGE_SIZE from h)]
  exact ⟨this, by rw [from_bytes, this]; rfl⟩

/-- Witness for C5 on the empty byte string. -/
theorem C5_decode_too_short_witness :
    ([] : List Nat).length < 64 ∧ from_bytesE [] = .error .TooShort ∧
      from_bytes ([] : List Nat) = none :=
  ⟨by decide, C5_decode_too_short [] (by decide)⟩

theorem from_bytesE_ordinal (data : List Nat) (h : 64 ≤ data.length) :
    from_bytesE data =
      match taskStateOfNat (readLE 56 4 data) with
      | none => .error .InvalidEnum
      | some ts =>
          .ok { timestamp_us := readLE 0 8 data, cursor_x := readLE 8 8 data,
                cursor_y := readLE 16 8 data, cursor_vx := readLE 24 8 data,
                cursor_vy := readLE 32 8 data, target_x := readLE 40 8 data,
                target_y := readLE 48 8 data, task_state := ts,
                trial_number := readLE 60 4 data } := by
  rw [from_bytesE, if_neg (by simp only [MESSAGE_SIZE]; omega)]
  simp only [readLE, MESSAGE_SIZE, List.drop_take, List.drop_drop,
    List.take_take, List.drop_zero]
  norm_num

/-- C6: on an input of 64 bytes or more, decoding fails (through the
`TaskState(...)` branch, `InvalidEnum`) exactly when the little-endian uint32
ordinal at offset 56 is 5 or greater; for ordinals 0–4 decoding succeeds. -/
theorem C6_invalid_enum (data : List Nat) (h : 64 ≤ data.length) :
    (5 ≤ readLE 56 4 data →
      from_bytesE data = .error .InvalidEnum ∧ from_bytes data = none) ∧
    (readLE 56 4 data < 5 → ∃ m, from_bytes data = some m ∧
      taskStateOfNat (readLE 56 4 data) = some m.task_state) := by
  constructor
  · intro h5
    have : from_bytesE data = .error .InvalidEnum := by
      rw [from_bytesE_ordinal data h, taskStateOfNat_ge5 _ h5]
    exact ⟨this, by rw [from_bytes, this]; rfl⟩
  · intro h5
    obtain ⟨ts, hts⟩ := taskStateOfNat_lt5 _ h5
    refine ⟨{ timestamp_us := readLE 0 8 data, cursor_x := readLE 8 8 data,
              cursor_y := readLE 16 8 data, cursor_vx := readLE 24 8 data,
              cursor_vy := readLE 32 8 data, target_x := readLE 40 8 data,
              target_y := readLE 48 8 data, task_state := ts,
              trial_number := readLE 60 4 data }, ?_, ?_⟩
    · rw [from_bytes, from_bytesE_ordinal data h, hts]
      rfl
    · rw [hts]

/-- Witness for C6: a 64-byte frame with ordinal 5 is rejected as
`InvalidEnum`; flipping the ordinal to 4 makes it decode. -/
theorem C6_invalid_enum_witness :
    (64 ≤ (List.replicate 56 0 ++ [5, 0, 0, 0] ++ [9, 0, 0, 0] : List Nat).length ∧
      5 ≤ readLE 56 4 (List.replicate 56 0 ++ [5, 0, 0, 0] ++ [9, 0, 0, 0]) ∧
      from_bytesE (List.replicate 56 0 ++ [5, 0, 0, 0] ++ [9, 0, 0, 0]) =
        .error .InvalidEnum) ∧
    (64 ≤ (List.replicate 56 0 ++ [4, 0, 0, 0] ++ [9, 0, 0, 0] : List Nat).length ∧
      readLE 56 4 (List.replicate 56 0 ++ [4, 0, 0, 0] ++ [9, 0, 0, 0]) < 5 ∧
      (from_bytes (List.replicate 56 0 ++ [4, 0, 0, 0] ++ [9, 0, 0, 0])).isSome) := by
  constructor
  · refine ⟨by decide, by decide, ?_⟩
    exact ((C6_invalid_enum (List.replicate 56 0 ++ [5, 0, 0, 0] ++ [9, 0, 0, 0])
      (by decide)).1 (by decide)).1
  · refine ⟨by decide, by decide, ?_⟩
    obtain ⟨m, hm, -⟩ := (C6_invalid_enum
      (List.replicate 56 0 ++ [4, 0, 0, 0] ++ [9, 0, 0, 0]) (by decide)).2 (by decide)
    rw [hm]
    rfl

/-! ## Receiver (`network/udp_receiver.py`) -/

/-- The receiver state the read loop mutates: the bounded deque, the
latest-message cell and the two counters (`UDPReceiver.__init__`,
lines 37–48). -/
structure ReceiverState where
  queue : List UDPMessage
  last_message : Option UDPMessage
  receive_count : Nat
  error_count : Nat
  queue_size : Nat
deriving DecidableEq, Repr

/-- The `UDPReceiver.__init__`: empty deque with `maxlen = queue_size`, no latest
message, both counters zero. -/
def initReceiver (queue_size : Nat) : ReceiverState :=
  { queue := [], last_message := none, receive_count := 0, error_count := 0,
    queue_size := queue_size }

/-- The `deque(maxlen = C).append`: append on the right; when over capacity the
oldest (leftmost) entries are evicted. -/
def pushBounded (C : Nat) (q : List UDPMessage) (m : UDPMessage) : List UDPMessage :=
  let q1 := q ++ [m]
  q1.drop (q1.length - C)

/-- One observable iteration of `_receive_loop` (lines 66–81): a datagram
arrival, a `BlockingIOError` (no data), or a socket-level exception.  A
datagram that fails to decode (`from_bytes` returns `None`) is dropped with
no counter change — `error_count` is touched only by the socket-exception
branch. -/
inductive RecvEvent where
  | datagram (data : List Nat)
  | noData
  | sockError
deriving DecidableEq, Repr

/-- One iteration of `_receive_loop`. -/
def receiveStep (s : ReceiverState) (e : RecvEvent) : ReceiverState :=
  match e with
  | .datagram data =>
      match from_bytes data with
      | some msg =>
          { s with queue := pushBounded s.queue_size s.queue msg,
                   last_message := some msg,
                   receive_count := s.receive_count + 1 }
      | none => s
  | .noData => s
  | .sockError => { s with error_count := s.error_count + 1 }

/-- The read loop consuming a finite event sequence. -/
def receiveLoop (s : ReceiverState) (es : List RecvEvent) : ReceiverState :=
  es.foldl receiveStep s

/-- The `UDPReceiver.get_latest`. -/
def get_latest (s : ReceiverState) : Option UDPMessage :=
  s.last_message

/-- The `UDPReceiver.get_all`: returns the queued messages and clears the queue. -/
def get_all (s : ReceiverState) : List UDPMessage × ReceiverState :=
  (s.queue, { s with queue := [] })

/-- Events whose datagram decodes successfully. -/
def isGoodDatagram : RecvEvent → Bool
  | .datagram d => (from_bytes d).isSome
  | _ => false

/-- Socket-exception events (the only branch that touches `error_count`). -/
def isSockError : RecvEvent → Bool
  | .sockError => true
  | _ => false

theorem receiveLoop_counts (es : List RecvEvent) (s : ReceiverState) :
    (receiveLoop s es).receive_count =
      s.receive_count + es.countP isGoodDatagram ∧
    (receiveLoop s es).error_count =
      s.error_count + es.countP isSockError := by
  induction es generalizing s with
  | nil => simp [receiveLoop]
  | cons e es ih =>
      have step : receiveLoop s (e :: es) = receiveLoop (receiveStep s e) es := rfl
      rw [step]
      obtain ⟨ihr, ihe⟩ := ih (receiveStep s e)
      rw [List.countP_cons, List.countP_cons, ihr, ihe]
      cases e with
      | datagram d =>
          cases hd : from_bytes d <;>
            simp [receiveStep, hd, isGoodDatagram, isSockError]
          all_goals omega
      | noData => simp [receiveStep, isGoodDatagram, isSockError]
      | sockError =>
          simp [receiveStep, isGoodDatagram, isSockError]
          omega

/-- C3 as stated is false on the code: a datagram that fails to decode is
dropped silently, `error_count` is not incremented.  Concretely, consuming
the single undecodable empty datagram (`N = 0`, `M = 1`) leaves
`received = 0` but `decode_errors = 0 ≠ 1`. -/
theorem C3_counterexample :
    from_bytes ([] : List Nat) = none ∧
    ¬ ((receiveLoop (initReceiver 100) [RecvEvent.datagram []]).receive_count = 0 ∧
       (receiveLoop (initReceiver 100) [RecvEvent.datagram []]).error_count = 1) := by
  decide

/-- C3 amended: over any interleaving of datagrams, `received` counts exactly
the successfully decoded ones; decode failures are dropped without touching
`error_count`, which stays 0 (it counts only socket-level exceptions). -/
theorem C3_amended_receiver_counters (q : Nat) (ds : List (List Nat)) :
    (receiveLoop (initReceiver q) (ds.map RecvEvent.datagram)).receive_count =
      ds.countP (fun d => (from_bytes d).isSome) ∧
    (receiveLoop (initReceiver q) (ds.map RecvEvent.datagram)).error_count = 0 := by
  obtain ⟨hr, he⟩ := receiveLoop_counts (ds.map RecvEvent.datagram) (initReceiver q)
  constructor
  · rw [hr, List.countP_map]
    have hc : isGoodDatagram ∘ RecvEvent.datagram =
        fun d => (from_bytes d).isSome := rfl
    rw [hc]
    show 0 + _ = _
    rw [Nat.zero_add]
  · rw [he, List.countP_map]
    have hc : isSockError ∘ RecvEvent.datagram = fun _ : List Nat => false := rfl
    rw [hc, List.countP_false]
    rfl

theorem pushBounded_length_le (C : Nat) (q : List UDPMessage) (m : UDPMessage) :
    (pushBounded C q m).length ≤ C := by
  simp [pushBounded]
  omega

theorem pushBounded_eq_drop (C : Nat) (q : List UDPMessage) (m : UDPMessage) :
    pushBounded C q m = (q ++ [m]).drop ((q ++ [m]).length - C) := rfl

theorem drop_overflow_append (C : Nat) (xs ys : List UDPMessage) :
    (xs.drop (xs.length - C) ++ ys).drop
        ((xs.drop (xs.length - C) ++ ys).length - C) =
      (xs ++ ys).drop ((xs ++ ys).length - C) := by
  rw [← List.drop_append_of_le_length (Nat.sub_le xs.length C),
    List.drop_drop]
  congr 1
  simp only [List.length_drop, List.length_append]
  omega

theorem getLast?_cons_some (a : α) (t : List α) :
    ∃ y, (a :: t).getLast? = some y := by
  induction t generalizing a with
  | nil => exact ⟨a, rfl⟩
  | cons b t ih =>
      rw [List.getLast?_cons_cons]
      exact ih b

theorem getLast?_cons_or (m : α) (ms : List α) (x : Option α) :
    ((m :: ms).getLast?).or x = (ms.getLast?).or (some m) := by
  cases ms with
  | nil => rfl
  | cons a t =>
      rw [List.getLast?_cons_cons]
      obtain ⟨y, hy⟩ := getLast?_cons_some a t
      rw [hy]
      rfl

theorem receiveLoop_push (C : Nat) (msgs : List UDPMessage)
    (hv : ∀ m ∈ msgs, m.Valid) (s : ReceiverState) (hq : s.queue_size = C)
    (hlen : s.queue.length ≤ C) :
    receiveLoop s (msgs.map fun m => RecvEvent.datagram (to_bytes m)) =
      { queue := (s.queue ++ msgs).drop ((s.queue ++ msgs).length - C),
        last_message := (msgs.getLast?).or s.last_message,
        receive_count := s.receive_count + msgs.length,
        error_count := s.error_count,
        queue_size := C } := by
  induction msgs generalizing s with
  | nil =>
      obtain ⟨qu, lm, rc, ec, qs⟩ := s
      simp at hq hlen
      simp [receiveLoop, hq, Nat.sub_eq_zero_of_le hlen]
  | cons m ms ih =>
      have hm : m.Valid := hv m (by simp)
      have hms : ∀ x ∈ ms, x.Valid := fun x hx => hv x (by simp [hx])
      have hdec : from_bytes (to_bytes m) = some m :=
        from_bytes_to_bytes m hm
      have hstep :
          receiveLoop s ((m :: ms).map fun x => RecvEvent.datagram (to_bytes x)) =
            receiveLoop
              { s with queue := pushBounded s.queue_size s.queue m,
                       last_message := some m,
                       receive_count := s.receive_count + 1 }
              (ms.map fun x => RecvEvent.datagram (to_bytes x)) := by
        simp [receiveLoop, receiveStep, hdec]
      rw [hstep, ih hms _ (by simp [hq]) (by simp [hq]; exact pushBounded_length_le C s.queue m)]
      have hqueue :
          (pushBounded s.queue_size s.queue m ++ ms).drop
              ((pushBounded s.queue_size s.queue m ++ ms).length - C) =
            ((s.queue ++ m :: ms).drop ((s.queue ++ m :: ms).length - C)) := by
        rw [hq, pushBounded_eq_drop, drop_overflow_append]
        simp
      rw [hqueue]
      simp [getLast?_cons_or, Nat.add_assoc, Nat.add_comm 1 ms.length]

/-- C4: pushing more than capacity `C` valid messages through the read loop
leaves exactly the `C` most recent in arrival order in the backlog;
`get_all` returns them and clears the queue, and `get_latest` returns the
last pushed message. -/
theorem C4_backlog_eviction (C : Nat) (msgs : List UDPMessage)
    (hv : ∀ m ∈ msgs, m.Valid) (hlen : C < msgs.length) :
    (get_all (receiveLoop (initReceiver C)
        (msgs.map fun m => RecvEvent.datagram (to_bytes m)))).1 =
      msgs.drop (msgs.length - C) ∧
    (get_all (receiveLoop (initReceiver C)
        (msgs.map fun m => RecvEvent.datagram (to_bytes m)))).1.length = C ∧
    (get_all (receiveLoop (initReceiver C)
        (msgs.map fun m => RecvEvent.datagram (to_bytes m)))).2.queue = [] ∧
    get_latest (receiveLoop (initReceiver C)
        (msgs.map fun m => RecvEvent.datagram (to_bytes m))) = msgs.getLast? := by
  rw [receiveLoop_push C msgs hv (initReceiver C) rfl (by simp [initReceiver])]
  refine ⟨by simp [get_all, initReceiver], ?_, by simp [get_all], ?_⟩
  · simp [get_all, initReceiver]
    omega
  · simp [get_latest, initReceiver]

/-- A concrete valid wire message used by witnesses. -/
def sampleMsg (k : Nat) : UDPMessage :=
  { timestamp_us := k, cursor_x := 0, cursor_y := 0, cursor_vx := 0,
    cursor_vy := 0, target_x := 0, target_y := 0, task_state := .RUNNING,
    trial_number := k }

/-- Witness for C4: capacity 1, two pushed messages; the backlog keeps only
the second, which is also the latest. -/
theorem C4_backlog_eviction_witness :
    (∀ m ∈ [sampleMsg 1, sampleMsg 2], m.Valid) ∧
    1 < ([sampleMsg 1, sampleMsg 2] : List UDPMessage).length ∧
    (get_all (receiveLoop (initReceiver 1)
        (([sampleMsg 1, sampleMsg 2] : List UDPMessage).map
          fun m => RecvEvent.datagram (to_bytes m)))).1 =
      ([sampleMsg 1, sampleMsg 2] : List UDPMessage).drop (2 - 1) ∧
    get_latest (receiveLoop (initReceiver 1)
        (([sampleMsg 1, sampleMsg 2] : List UDPMessage).map
          fun m => RecvEvent.datagram (to_bytes m))) =
      ([sampleMsg 1, sampleMsg 2] : List UDPMessage).getLast? := by
  have h := C4_backlog_eviction 1 [sampleMsg 1, sampleMsg 2] (by decide) (by decide)
  exact ⟨by decide, by decide, h.1, h.2.2.2⟩

/-! ## Trial data and metrics (`data/hdf5_writer.py`, class `TrialData`) -/

/-- The `TrialData`: the per-trial accumulator of time-aligned samples.  Numeric
values are exact rationals. -/
structure TrialData where
  timestamps : List ℚ
  cursor_x : List ℚ
  cursor_y : List ℚ
  cursor_vx : List ℚ
  cursor_vy : List ℚ
  target_x : List ℚ
  target_y : List ℚ
  error_x : List ℚ
  error_y : List ℚ
deriving DecidableEq, Repr

/-- A fresh/cleared accumulator (`TrialData()` defaults / `TrialData.clear`). -/
def TrialData.empty : TrialData :=
  { timestamps := [], cursor_x := [], cursor_y := [], cursor_vx := [],
    cursor_vy := [], target_x := [], target_y := [], error_x := [],
    error_y := [] }

/-- The `TrialData.append`: push one message's sample; errors are computed at
append time as cursor minus target. -/
def TrialData.append (td : TrialData) (msg : MsgQ) : TrialData :=
  { timestamps := td.timestamps ++ [msg.timestamp_us],
    cursor_x := td.cursor_x ++ [msg.cursor_x],
    cursor_y := td.cursor_y ++ [msg.cursor_y],
    cursor_vx := td.cursor_vx ++ [msg.cursor_vx],
    cursor_vy := td.cursor_vy ++ [msg.cursor_vy],
    target_x := td.target_x ++ [msg.target_x],
    target_y := td.target_y ++ [msg.target_y],
    error_x := td.error_x ++ [msg.cursor_x - msg.target_x],
    error_y := td.error_y ++ [msg.cursor_y - msg.target_y] }

/-- The `np.mean` of a rational list (0 on the empty list, unused there). -/
def listMean (xs : List ℚ) : ℚ :=
  xs.sum / xs.length

/-- The `TrialData.compute_rmse`, carried as the squares of the source's three
RMSE values (the source returns `sqrt` of each mean; `sqrt` is the unique
nonnegative root, so these determine it): `(0,0,0)` when no error samples,
else the mean of `ex^2`, of `ey^2`, and of `ex^2 + ey^2`. -/
def TrialData.compute_rmse_sq (td : TrialData) : ℚ × ℚ × ℚ :=
  if td.error_x = [] then (0, 0, 0)
  else
    (listMean (td.error_x.map (fun e => e ^ 2)),
     listMean (td.error_y.map (fun e => e ^ 2)),
     listMean (List.zipWith (fun a b => a ^ 2 + b ^ 2) td.error_x td.error_y))

/-- One trial group written under `/trials` by `HDF5Writer.end_trial`: group
name index, success attribute, summary attributes (RMSE values by their
squares), and the duration attribute (absent when the trial had no
samples). -/
structure Group where
  trial : Nat
  success : Bool
  msq_x : ℚ
  msq_y : ℚ
  msq_total : ℚ
  sample_count : Nat
  duration_s : Option ℚ
deriving DecidableEq, Repr

/-- One summary row written by `CSVWriter.write_trial` (RMSE columns carried
by their squares, before the source's `*1000` mm scaling and fixed-point
formatting). -/
structure CSVRow where
  trial : Nat
  duration_s : ℚ
  msq_x : ℚ
  msq_y : ℚ
  msq_total : ℚ
  sample_count : Nat
  success : Bool
deriving DecidableEq, Repr

/-- Observable writer calls made while processing, in program order. -/
inductive Event where
  | trialStarted (trial : Nat)
  | trialEnded (g : Group)
  | csvRowWritten (row : CSVRow)
  | hdf5Closed
  | csvClosed
deriving DecidableEq, Repr

/-- The `HDF5Writer` state: whether a file is open, the per-file trial counter,
the accumulator, the recording flag and the trial groups written so far. -/
structure HDF5State where
  fileOpen : Bool
  trial_number : Nat
  trial_data : TrialData
  recording : Bool
  groups : List Group
deriving DecidableEq, Repr

/-- The `HDF5Writer.__init__`. -/
def HDF5State.init : HDF5State :=
  { fileOpen := false, trial_number := 0, trial_data := TrialData.empty,
    recording := false, groups := [] }

/-- The `HDF5Writer.start_experiment`: open a fresh file (fresh `/trials` group)
and reset the trial counter. -/
def HDF5State.start_experiment (h : HDF5State) : HDF5State :=
  { h with fileOpen := true, trial_number := 0, groups := [] }

/-- The `HDF5Writer.start_trial`: open a file first if none is open, then bump
the trial counter, clear the accumulator and start recording. -/
def HDF5State.start_trial (h : HDF5State) : HDF5State × List Event :=
  let h0 := if h.fileOpen then h else h.start_experiment
  let h1 := { h0 with trial_number := h0.trial_number + 1,
                      trial_data := TrialData.empty, recording := true }
  (h1, [Event.trialStarted h1.trial_number])

/-- The `HDF5Writer.record`: append the sample only while recording. -/
def HDF5State.record (h : HDF5State) (msg : MsgQ) : HDF5State :=
  if h.recording then { h with trial_data := h.trial_data.append msg } else h

/-- The `HDF5Writer.end_trial`: no-op unless recording with an open file;
otherwise stop recording and write the trial group with its summary
attributes. -/
def HDF5State.end_trial (h : HDF5State) (success : Bool) : HDF5State × List Event :=
  if h.recording = false ∨ h.fileOpen = false then (h, [])
  else
    let msq := h.trial_data.compute_rmse_sq
    let g : Group :=
      { trial := h.trial_number, success := success, msq_x := msq.1,
        msq_y := msq.2.1, msq_total := msq.2.2,
        sample_count := h.trial_data.timestamps.length,
        duration_s :=
          match h.trial_data.timestamps with
          | [] => none
          | t0 :: _ => some ((h.trial_data.timestamps.getLastD 0 - t0) / 1000000) }
    ({ h with recording := false, groups := h.groups ++ [g] },
     [Event.trialEnded g])

/-- The `HDF5Writer.close` / `end_experiment`. -/
def HDF5State.close (h : HDF5State) : HDF5State × List Event :=
  if h.fileOpen then ({ h with fileOpen := false }, [Event.hdf5Closed])
  else (h, [])

/-- The `CSVWriter` state: whether a file is open, the per-file row counter and
the data rows written so far. -/
structure CSVState where
  fileOpen : Bool
  trial_number : Nat
  rows : List CSVRow
deriving DecidableEq, Repr

/-- The `CSVWriter.__init__`. -/
def CSVState.init : CSVState :=
  { fileOpen := false, trial_number := 0, rows := [] }

/-- The `CSVWriter.start_experiment`: open a fresh file (header only) and reset
the row counter. -/
def CSVState.start_experiment (_ : CSVState) : CSVState :=
  { fileOpen := true, trial_number := 0, rows := [] }

/-- The `CSVWriter.write_trial`: open a file first if none is open, bump the row
counter and append the summary row, whose `trial` column is the writer's own
counter. -/
def CSVState.write_trial (c : CSVState) (duration_s msq_x msq_y msq_total : ℚ)
    (sample_count : Nat) (success : Bool) : CSVState × List Event :=
  let c0 := if c.fileOpen then c else c.start_experiment
  let row : CSVRow :=
    { trial := c0.trial_number + 1, duration_s := duration_s, msq_x := msq_x,
      msq_y := msq_y, msq_total := msq_total, sample_count := sample_count,
      success := success }
  ({ c0 with trial_number := c0.trial_number + 1, rows := c0.rows ++ [row] },
   [Event.csvRowWritten row])

/-- The `CSVWriter.close` / `end_experiment`. -/
def CSVState.close (c : CSVState) : CSVState × List Event :=
  if c.fileOpen then ({ c with fileOpen := false }, [Event.csvClosed])
  else (c, [])

/-! ## Experiment recorder / trial detector (`main.py`) -/

/-- The `ExperimentRecorder` state (`main.py` lines 21–58). -/
structure Recorder where
  hdf5 : Option HDF5State
  csv : Option CSVState
  current_trial : Nat
  current_state : TaskState
  trial_active : Bool
  sample_count : Nat
deriving DecidableEq, Repr

/-- The `ExperimentRecorder.__init__`. -/
def Recorder.init (enable_hdf5 enable_csv : Bool) : Recorder :=
  { hdf5 := if enable_hdf5 then some HDF5State.init else none,
    csv := if enable_csv then some CSVState.init else none,
    current_trial := 0, current_state := .IDLE, trial_active := false,
    sample_count := 0 }

/-- The `ExperimentRecorder.start`: start both enabled writers. -/
def Recorder.start (r : Recorder) : Recorder :=
  { r with
    hdf5 := match r.hdf5 with
            | some h => some h.start_experiment
            | none => none,
    csv := match r.csv with
           | some c => some c.start_experiment
           | none => none }

/-- The `ExperimentRecorder._start_trial` (lines 98–105). -/
def Recorder.start_trial (r : Recorder) (trial_number : Nat) : Recorder × List Event :=
  let r1 := { r with current_trial := trial_number, trial_active := true,
                     sample_count := 0 }
  match r1.hdf5 with
  | some h =>
      let he := h.start_trial
      ({ r1 with hdf5 := some he.1 }, he.2)
  | none => (r1, [])

/-- The `ExperimentRecorder._end_trial` (lines 107–133): metrics are read from
the HDF5 accumulator, the HDF5 trial group is written, and only then — still
inside the `if self.hdf5:` branch — the CSV summary row. -/
def Recorder.end_trial (r : Recorder) (success : Bool) : Recorder × List Event :=
  if r.trial_active = false then (r, [])
  else
    let r1 := { r with trial_active := false }
    match r1.hdf5 with
    | none => (r1, [])
    | some h =>
        let msq := h.trial_data.compute_rmse_sq
        let duration : ℚ :=
          match h.trial_data.timestamps with
          | [] => 0
          | t0 :: _ => (h.trial_data.timestamps.getLastD 0 - t0) / 1000000
        let he := h.end_trial success
        let r2 := { r1 with hdf5 := some he.1 }
        match r2.csv with
        | none => (r2, he.2)
        | some c =>
            let ce := c.write_trial duration msq.1 msq.2.1 msq.2.2
              r.sample_count success
            ({ r2 with csv := some ce.1 }, he.2 ++ ce.2)

/-- The `ExperimentRecorder.process` (lines 67–96). -/
def Recorder.process (r : Recorder) (msg : MsgQ) : Recorder × List Event :=
  let re :=
    if msg.task_state = TaskState.RUNNING then
      let ra :=
        if r.trial_active = false ∨ msg.trial_number ≠ r.current_trial then
          let rb := if r.trial_active then r.end_trial true else (r, [])
          let rc := rb.1.start_trial msg.trial_number
          (rc.1, rb.2 ++ rc.2)
        else (r, ([] : List Event))
      match ra.1.hdf5 with
      | some h =>
          if ra.1.trial_active then
            ({ ra.1 with hdf5 := some (h.record msg),
                         sample_count := ra.1.sample_count + 1 }, ra.2)
          else ra
      | none => ra
    else
      if r.trial_active then
        if msg.task_state = TaskState.COMPLETED then r.end_trial true
        else if msg.task_state = TaskState.FAILED then r.end_trial false
        else (r, [])
      else (r, [])
  ({ re.1 with current_state := msg.task_state,
               current_trial := msg.trial_number }, re.2)

/-- The `ExperimentRecorder.stop` (lines 135–144): force-close an active trial as
failed, then close the writers. -/
def Recorder.stop (r : Recorder) : Recorder × List Event :=
  let re := if r.trial_active then r.end_trial false else (r, [])
  let he :=
    match re.1.hdf5 with
    | some h =>
        let x := h.close
        ({ re.1 with hdf5 := some x.1 }, x.2)
    | none => (re.1, ([] : List Event))
  let ce :=
    match he.1.csv with
    | some c =>
        let x := c.close
        ({ he.1 with csv := some x.1 }, x.2)
    | none => (he.1, ([] : List Event))
  (ce.1, re.2 ++ he.2 ++ ce.2)

/-- The consumer loop feeding decoded messages to the recorder in order. -/
def Recorder.runProcess (r : Recorder) (msgs : List MsgQ) : Recorder × List Event :=
  match msgs with
  | [] => (r, [])
  | m :: ms =>
      let re := r.process m
      let rest := re.1.runProcess ms
      (rest.1, re.2 ++ rest.2)

/-- C1 (Scenario B): from a state Active on trial 1 with 4 appended Running
samples of constant 1 mm cursor error, processing a `Running` message with
`trial_number = 2` first writes the trial-1 summary with `success = true`,
`sample_count = 4` and mean-square total error `(1/1000)^2` (i.e.
`rmse_total = 0.001`), then starts trial 2 with a reset accumulator — with no
`Completed` message in between. -/
theorem C1_scenarioB (t1 t2 t3 t4 : ℚ) (cxs cys vxs vys txs tys : List ℚ)
    (gs : List Group) (rows : List CSVRow) (cst : TaskState)
    (mts mcx mcy mvx mvy mtx mty : ℚ) :
    let td : TrialData :=
      { timestamps := [t1, t2, t3, t4], cursor_x := cxs, cursor_y := cys,
        cursor_vx := vxs, cursor_vy := vys, target_x := txs, target_y := tys,
        error_x := [1/1000, 1/1000, 1/1000, 1/1000],
        error_y := [0, 0, 0, 0] }
    let s : Recorder :=
      { hdf5 := some { fileOpen := true, trial_number := 1, trial_data := td,
                       recording := true, groups := gs },
        csv := some { fileOpen := true, trial_number := 0, rows := rows },
        current_trial := 1, current_state := cst, trial_active := true,
        sample_count := 4 }
    let msg : MsgQ :=
      { timestamp_us := mts, cursor_x := mcx, cursor_y := mcy,
        cursor_vx := mvx, cursor_vy := mvy, target_x := mtx, target_y := mty,
        task_state := .RUNNING, trial_number := 2 }
    let g : Group :=
      { trial := 1, success := true, msq_x := 1/1000000, msq_y := 0,
        msq_total := 1/1000000, sample_count := 4,
        duration_s := some ((t4 - t1) / 1000000) }
    (s.process msg).2 =
      [Event.trialEnded g,
       Event.csvRowWritten
         { trial := 1, duration_s := (t4 - t1) / 1000000, msq_x := 1/1000000,
           msq_y := 0, msq_total := 1/1000000, sample_count := 4,
           success := true },
       Event.trialStarted 2] ∧
    (s.process msg).1.trial_active = true ∧
    (s.process msg).1.current_trial = 2 ∧
    (s.process msg).1.sample_count = 1 ∧
    (s.process msg).1.hdf5 =
      some { fileOpen := true, trial_number := 2,
             trial_data := TrialData.empty.append msg, recording := true,
             groups := gs ++ [g] } := by
  simp only [Recorder.process, Recorder.end_trial, Recorder.start_trial,
    HDF5State.end_trial, HDF5State.start_trial, HDF5State.record,
    HDF5State.start_experiment, CSVState.write_trial,
    CSVState.start_experiment, TrialData.compute_rmse_sq, TrialData.append,
    TrialData.empty, listMean]
  norm_num [List.getLastD]
  simp

/-- A concrete `Running` message for the metrics layer. -/
def sampleMsgQ : MsgQ :=
  { timestamp_us := 0, cursor_x := 0, cursor_y := 0, cursor_vx := 0,
    cursor_vy := 0, target_x := 0, target_y := 0, task_state := .RUNNING,
    trial_number := 1 }

/-- C7 as stated is false on the code: with the HDF5 writer disabled and the
CSV sink enabled and open, stopping while a trial is active force-closes the
trial but delivers no summary to the registered CSV sink — the CSV write
sits under the `if self.hdf5:` branch of `_end_trial`.  The state below is
reached from a fresh recorder by one `Running` message. -/
theorem C7_counterexample :
    (((Recorder.init false true).start.process sampleMsgQ).1.trial_active = true) ∧
    (((Recorder.init false true).start.process sampleMsgQ).1.csv =
      some { fileOpen := true, trial_number := 0, rows := [] }) ∧
    ((((Recorder.init false true).start.process sampleMsgQ).1.stop).2 =
      [Event.csvClosed]) ∧
    ((((Recorder.init false true).start.process sampleMsgQ).1.stop).1.trial_active
      = false) := by
  decide

/-- C7 amended: provided the HDF5 writer is enabled, recording and open (as
it is whenever a trial was started through `process`), stopping with an
active trial force-closes it as `success = false` and delivers the summary —
the HDF5 trial group and (when the CSV sink is open) the CSV row — before
the writers are closed. -/
theorem C7_amended_stop_delivers_summary (td : TrialData) (htn : Nat)
    (gs : List Group) (rows : List CSVRow) (ctn sc n : Nat) (cst : TaskState) :
    let s : Recorder :=
      { hdf5 := some { fileOpen := true, trial_number := htn, trial_data := td,
                       recording := true, groups := gs },
        csv := some { fileOpen := true, trial_number := ctn, rows := rows },
        current_trial := n, current_state := cst, trial_active := true,
        sample_count := sc }
    let msq := td.compute_rmse_sq
    let dur : ℚ :=
      match td.timestamps with
      | [] => 0
      | t0 :: _ => (td.timestamps.getLastD 0 - t0) / 1000000
    let gdur : Option ℚ :=
      match td.timestamps with
      | [] => none
      | t0 :: _ => some ((td.timestamps.getLastD 0 - t0) / 1000000)
    (s.stop).2 =
      [Event.trialEnded
         { trial := htn, success := false, msq_x := msq.1, msq_y := msq.2.1,
           msq_total := msq.2.2, sample_count := td.timestamps.length,
           duration_s := gdur },
       Event.csvRowWritten
         { trial := ctn + 1, duration_s := dur, msq_x := msq.1,
           msq_y := msq.2.1, msq_total := msq.2.2, sample_count := sc,
           success := false },
       Event.hdf5Closed, Event.csvClosed] ∧
    (s.stop).1.trial_active = false := by
  simp only [Recorder.stop, Recorder.end_trial, HDF5State.end_trial,
    HDF5State.close, CSVState.write_trial, CSVState.start_experiment,
    CSVState.close]
  simp

theorem Recorder.end_trial_hdf5_none (r : Recorder) (b : Bool)
    (h5 : r.hdf5 = none) :
    r.end_trial b = ({ r with trial_active := false }, []) := by
  obtain ⟨h5f, csvf, ct, cs, ta, sc⟩ := r
  simp only at h5
  subst h5
  cases ta <;> simp [Recorder.end_trial]

theorem Recorder.process_hdf5_none (r : Recorder) (m : MsgQ)
    (h5 : r.hdf5 = none) :
    (r.process m).2 = [] ∧ (r.process m).1.hdf5 = none ∧
    (r.process m).1.csv = r.csv ∧
    ((r.process m).1.sample_count = r.sample_count ∨
      (r.process m).1.sample_count = 0) := by
  obtain ⟨h5f, csvf, ct, cs, ta, sc⟩ := r
  simp only at h5
  subst h5
  by_cases hrun : m.task_state = TaskState.RUNNING
  · cases ta <;> by_cases hne : m.trial_number = ct <;>
      simp [Recorder.process, Recorder.end_trial, Recorder.start_trial,
        hrun, hne]
  · cases ta <;> by_cases hcomp : m.task_state = TaskState.COMPLETED <;>
      by_cases hfail : m.task_state = TaskState.FAILED <;>
      simp [Recorder.process, Recorder.end_trial, hrun, hcomp, hfail]

theorem Recorder.runProcess_hdf5_none (msgs : List MsgQ) (r : Recorder)
    (h5 : r.hdf5 = none) (hsc : r.sample_count = 0) :
    (r.runProcess msgs).1.hdf5 = none ∧
    (r.runProcess msgs).1.csv = r.csv ∧
    (r.runProcess msgs).1.sample_count = 0 ∧
    (r.runProcess msgs).2 = [] := by
  induction msgs generalizing r with
  | nil => exact ⟨h5, rfl, hsc, rfl⟩
  | cons m ms ih =>
      obtain ⟨he, h5p, hcsv, hscp⟩ := Recorder.process_hdf5_none r m h5
      have hsc1 : (r.process m).1.sample_count = 0 := by
        rcases hscp with h | h
        · rw [h, hsc]
        · exact h
      obtain ⟨ih5, ihcsv, ihsc, ihev⟩ := ih (r.process m).1 h5p hsc1
      simp only [Recorder.runProcess]
      exact ⟨ih5, by rw [ihcsv, hcsv], ihsc, by rw [he, ihev]; rfl⟩

/-- C8: with the HDF5 writer disabled and the CSV writer enabled, no message
trace ever increments `sample_count`, ever emits a writer event, or ever
writes a CSV summary row — the CSV write and the sample counting both sit
under the `if self.hdf5:` branches; even `stop` only closes the CSV file. -/
theorem C8_csv_dead_without_hdf5 (msgs : List MsgQ) :
    ((Recorder.init false true).start.runProcess msgs).1.sample_count = 0 ∧
    ((Recorder.init false true).start.runProcess msgs).1.csv =
      some { fileOpen := true, trial_number := 0, rows := [] } ∧
    ((Recorder.init false true).start.runProcess msgs).2 = [] ∧
    (((Recorder.init false true).start.runProcess msgs).1.stop).2 =
      [Event.csvClosed] := by
  have h5 : ((Recorder.init false true).start).hdf5 = none := rfl
  have hsc : ((Recorder.init false true).start).sample_count = 0 := rfl
  obtain ⟨p5, pcsv, psc, pev⟩ :=
    Recorder.runProcess_hdf5_none msgs ((Recorder.init false true).start) h5 hsc
  have hcsv0 : ((Recorder.init false true).start).csv =
      some { fileOpen := true, trial_number := 0, rows := [] } := rfl
  rw [hcsv0] at pcsv
  refine ⟨psc, pcsv, pev, ?_⟩
  set q := ((Recorder.init false true).start.runProcess msgs).1 with hq
  obtain ⟨q5, qcsv, qct, qcs, qta, qsc⟩ := q
  simp only at p5 pcsv
  subst p5
  subst pcsv
  cases qta <;>
    simp [Recorder.stop, Recorder.end_trial, HDF5State.close, CSVState.close]

/-- C10: from `Active(n)` (with the HDF5 writer recording), an `Idle` message
leaves the trial active with no sample appended and no event, but overwrites
`current_trial` with the message's `trial_number`; when that number differs
from `n`, a later `Running` message carrying the original `n` is treated as
a new trial boundary: it force-closes the still-active trial with
`success = true` and starts a fresh one. -/
theorem C10_idle_overwrites_current_trial (td : TrialData) (htn : Nat)
    (gs : List Group) (csvOpt : Option CSVState) (n mnum sc : Nat)
    (cst : TaskState) (hne : mnum ≠ n)
    (i1 i2 i3 i4 i5 i6 i7 r1q r2q r3q r4q r5q r6q r7q : ℚ) :
    let s : Recorder :=
      { hdf5 := some { fileOpen := true, trial_number := htn, trial_data := td,
                       recording := true, groups := gs },
        csv := csvOpt, current_trial := n, current_state := cst,
        trial_active := true, sample_count := sc }
    let idleMsg : MsgQ :=
      { timestamp_us := i1, cursor_x := i2, cursor_y := i3, cursor_vx := i4,
        cursor_vy := i5, target_x := i6, target_y := i7,
        task_state := .IDLE, trial_number := mnum }
    let runMsg : MsgQ :=
      { timestamp_us := r1q, cursor_x := r2q, cursor_y := r3q,
        cursor_vx := r4q, cursor_vy := r5q, target_x := r6q, target_y := r7q,
        task_state := .RUNNING, trial_number := n }
    s.process idleMsg =
      ({ s with current_state := .IDLE, current_trial := mnum }, []) ∧
    (∃ g rest, ((s.process idleMsg).1.process runMsg).2 =
        Event.trialEnded g :: rest ∧ g.success = true ∧ g.trial = htn) ∧
    ((s.process idleMsg).1.process runMsg).1.trial_active = true ∧
    ((s.process idleMsg).1.process runMsg).1.current_trial = n ∧
    ((s.process idleMsg).1.process runMsg).1.sample_count = 1 := by
  refine ⟨rfl, ?_, ?_, ?_, ?_⟩ <;>
    (cases csvOpt <;>
      simp [Recorder.process, Recorder.end_trial, Recorder.start_trial,
        HDF5State.end_trial, HDF5State.start_trial, HDF5State.record,
        CSVState.write_trial, CSVState.start_experiment, Ne.symm hne])

/-- Witness for C10: concrete state with `n = 1`, idle message carrying
trial 7, then `Running` with trial 1 again. -/
theorem C10_idle_overwrites_current_trial_witness :
    (7 : Nat) ≠ 1 ∧
    ((({ hdf5 := some { fileOpen := true, trial_number := 1,
                        trial_data := TrialData.empty, recording := true,
                        groups := [] },
         csv := none, current_trial := 1, current_state := .RUNNING,
         trial_active := true, sample_count := 3 } : Recorder).process
        { timestamp_us := 0, cursor_x := 0, cursor_y := 0, cursor_vx := 0,
          cursor_vy := 0, target_x := 0, target_y := 0, task_state := .IDLE,
          trial_number := 7 }).1.process
        { timestamp_us := 1, cursor_x := 0, cursor_y := 0, cursor_vx := 0,
          cursor_vy := 0, target_x := 0, target_y := 0,
          task_state := .RUNNING, trial_number := 1 }).1.sample_count = 1 := by
  have h := C10_idle_overwrites_current_trial TrialData.empty 1 [] none 1 7 3
    TaskState.RUNNING (by decide) 0 0 0 0 0 0 0 1 0 0 0 0 0 0
  exact ⟨by decide, h.2.2.2.2⟩

/-! ## C9: sink-side trial numbering -/

/-- The trial groups persisted by the HDF5 writer, if enabled. -/
def hdf5Groups (r : Recorder) : List Group :=
  match r.hdf5 with
  | some h => h.groups
  | none => []

/-- The summary rows persisted by the CSV writer, if enabled. -/
def csvRows (r : Recorder) : List CSVRow :=
  match r.csv with
  | some c => c.rows
  | none => []

/-- HDF5 writer invariant: the writer's trial counter tracks the number of
groups written (plus one while recording), and the group indices are
`1, 2, 3, ...` in creation order. -/
def InvH (h : HDF5State) : Prop :=
  h.trial_number = h.groups.length + (if h.recording then 1 else 0) ∧
  h.groups.map Group.trial = List.range' 1 h.groups.length

/-- CSV writer invariant: the row counter equals the number of rows and the
`trial` column is `1, 2, 3, ...` in write order. -/
def InvC (c : CSVState) : Prop :=
  c.trial_number = c.rows.length ∧
  c.rows.map CSVRow.trial = List.range' 1 c.rows.length

/-- Recorder invariant: writer invariants, plus the coupling between the
detector's `trial_active` flag and the HDF5 recording flag. -/
def InvR (r : Recorder) : Prop :=
  (match r.hdf5 with
   | some h => InvH h ∧ h.recording = r.trial_active ∧
       (h.recording = true → h.fileOpen = true)
   | none => True) ∧
  (match r.csv with
   | some c => InvC c
   | none => True)

theorem range'_one_concat (k : Nat) :
    List.range' 1 (k + 1) = List.range' 1 k ++ [k + 1] := by
  rw [List.range'_concat]
  simp [Nat.add_comm]

theorem InvH_start_trial (h : HDF5State) (hrec : h.recording = false)
    (hi : InvH h) :
    InvH (h.start_trial).1 ∧ (h.start_trial).1.recording = true ∧
    (h.start_trial).1.fileOpen = true ∧
    (h.start_trial).1.groups = (if h.fileOpen then h else h.start_experiment).groups := by
  obtain ⟨hi1, hi2⟩ := hi
  rw [hrec] at hi1
  by_cases hfo : h.fileOpen = true
  · simp [HDF5State.start_trial, hfo, InvH, hi1, hi2]
  · simp at hfo
    simp [HDF5State.start_trial, hfo, HDF5State.start_experiment, InvH]

theorem InvH_end_trial (h : HDF5State) (b : Bool) (hrec : h.recording = true)
    (hfo : h.fileOpen = true) (hi : InvH h) :
    InvH (h.end_trial b).1 ∧ (h.end_trial b).1.recording = false ∧
    (h.end_trial b).1.fileOpen = true := by
  obtain ⟨hi1, hi2⟩ := hi
  rw [hrec] at hi1
  simp only [if_pos rfl] at hi1
  simp [HDF5State.end_trial, hrec, hfo, InvH, hi1, hi2, range'_one_concat]

theorem InvC_write_trial (c : CSVState) (d mx my mt : ℚ) (sc : Nat) (b : Bool)
    (hi : InvC c) :
    InvC (c.write_trial d mx my mt sc b).1 := by
  obtain ⟨hi1, hi2⟩ := hi
  by_cases hfo : c.fileOpen = true
  · simp [CSVState.write_trial, hfo, InvC, hi1, hi2, range'_one_concat]
  · simp at hfo
    simp [CSVState.write_trial, hfo, CSVState.start_experiment, InvC,
      range'_one_concat]

theorem end_trial_not_active (r : Recorder) (b : Bool) :
    (r.end_trial b).1.trial_active = false := by
  obtain ⟨h5f, csvf, ct, cs, ta, sc⟩ := r
  cases ta <;> cases h5f <;>
    simp [Recorder.end_trial] <;>
    cases csvf <;> simp

theorem InvR_end_trial (r : Recorder) (b : Bool) (h : InvR r) :
    InvR (r.end_trial b).1 := by
  obtain ⟨hh, hc⟩ := h
  obtain ⟨h5f, csvf, ct, cs, ta, sc⟩ := r
  cases ta with
  | false => exact ⟨hh, hc⟩
  | true =>
      cases h5f with
      | none => exact ⟨hh, hc⟩
      | some hw =>
          simp only [InvR] at hh ⊢
          obtain ⟨hwi, hwcoup, hwfo⟩ := hh
          have hrec : hw.recording = true := hwcoup
          have hfo : hw.fileOpen = true := hwfo hrec
          obtain ⟨he1, he2, he3⟩ := InvH_end_trial hw b hrec hfo hwi
          cases csvf with
          | none => exact ⟨⟨he1, he2, fun _ => he3⟩, trivial⟩
          | some cw => exact ⟨⟨he1, he2, fun _ => he3⟩,
              InvC_write_trial cw _ _ _ _ _ _ hc⟩

theorem InvR_start_trial (r : Recorder) (n : Nat) (h : InvR r)
    (hta : r.trial_active = false) : InvR (r.start_trial n).1 := by
  obtain ⟨hh, hc⟩ := h
  obtain ⟨h5f, csvf, ct, cs, ta, sc⟩ := r
  simp only at hta
  subst hta
  cases h5f with
  | none => exact ⟨trivial, hc⟩
  | some hw =>
      obtain ⟨hwi, hwcoup, hwfo⟩ := hh
      obtain ⟨hs1, hs2, hs3, hs4⟩ := InvH_start_trial hw hwcoup hwi
      exact ⟨⟨hs1, hs2, fun _ => hs3⟩, hc⟩

theorem InvR_update_bookkeeping (r : Recorder) (x : TaskState) (y : Nat) :
    InvR { r with current_state := x, current_trial := y } = InvR r := rfl

theorem HDF5State.record_fields (hw : HDF5State) (m : MsgQ) :
    (hw.record m).trial_number = hw.trial_number ∧
    (hw.record m).recording = hw.recording ∧
    (hw.record m).fileOpen = hw.fileOpen ∧
    (hw.record m).groups = hw.groups := by
  cases hr : hw.recording <;> simp [HDF5State.record, hr]

theorem InvH_record (hw : HDF5State) (m : MsgQ) (hi : InvH hw) :
    InvH (hw.record m) := by
  obtain ⟨f1, f2, f3, f4⟩ := HDF5State.record_fields hw m
  unfold InvH at hi ⊢
  rw [f1, f2, f4]
  exact hi

theorem InvR_set_record (X : Recorder) (hw : HDF5State) (m : MsgQ)
    (hX : InvR X) (hh : X.hdf5 = some hw) :
    InvR { X with hdf5 := some (hw.record m),
                  sample_count := X.sample_count + 1 } := by
  obtain ⟨hHpart, hc⟩ := hX
  obtain ⟨h5f, csvf, ct, cs, ta, sc⟩ := X
  simp only at hh
  subst hh
  obtain ⟨hwi, hwcoup, hwfo⟩ := hHpart
  obtain ⟨f1, f2, f3, f4⟩ := HDF5State.record_fields hw m
  refine ⟨⟨InvH_record hw m hwi, ?_, ?_⟩, hc⟩
  · rw [f2]
    exact hwcoup
  · rw [f2, f3]
    exact hwfo

theorem InvR_record_match (rc : Recorder) (ev : List Event) (m : MsgQ)
    (h : InvR rc) :
    InvR (match rc.hdf5 with
          | some hw =>
              if rc.trial_active then
                ({ rc with hdf5 := some (hw.record m),
                           sample_count := rc.sample_count + 1 }, ev)
              else (rc, ev)
          | none => (rc, ev)).1 := by
  cases hh : rc.hdf5 with
  | none => simpa [hh] using h
  | some hw =>
      cases hta : rc.trial_active with
      | false => simpa [hh, hta] using h
      | true => simpa [hh, hta] using InvR_set_record rc hw m h hh

theorem InvR_process (r : Recorder) (m : MsgQ) (h : InvR r) :
    InvR (r.process m).1 := by
  by_cases hrun : m.task_state = TaskState.RUNNING
  · by_cases hcond : r.trial_active = false ∨ m.trial_number ≠ r.current_trial
    · have hrb : InvR (if r.trial_active then r.end_trial true
          else (r, ([] : List Event))).1 := by
        cases hta : r.trial_active
        · simpa [hta] using h
        · simpa [hta] using InvR_end_trial r true h
      have hrbta : (if r.trial_active then r.end_trial true
          else (r, ([] : List Event))).1.trial_active = false := by
        cases hta : r.trial_active
        · simp [hta]
        · simpa [hta] using end_trial_not_active r true
      have hrc := InvR_start_trial _ m.trial_number hrb hrbta
      have hcond' : (r.trial_active = false ∨
          m.trial_number ≠ r.current_trial) = True := eq_true hcond
      simp only [Recorder.process, hrun, hcond', if_true,
        InvR_update_bookkeeping]
      exact InvR_record_match _ _ m hrc
    · have hcond' : (r.trial_active = false ∨
          m.trial_number ≠ r.current_trial) = False := eq_false hcond
      simp only [Recorder.process, hrun, hcond', if_false,
        InvR_update_bookkeeping]
      exact InvR_record_match _ _ m h
  · by_cases hta : r.trial_active = true
    · by_cases hcomp : m.task_state = TaskState.COMPLETED
      · simp only [Recorder.process, hrun, hcomp, hta,
          InvR_update_bookkeeping]
        simpa using InvR_end_trial r true h
      · by_cases hfail : m.task_state = TaskState.FAILED
        · simp only [Recorder.process, hrun, hcomp, hfail, hta,
            InvR_update_bookkeeping]
          simpa using InvR_end_trial r false h
        · simp only [Recorder.process, hrun, hcomp, hfail, hta,
            InvR_update_bookkeeping]
          simpa using h
    · simp only [Recorder.process, hrun, hta, InvR_update_bookkeeping]
      simpa [hta] using h

theorem InvR_init_start (e1 e2 : Bool) : InvR ((Recorder.init e1 e2).start) := by
  cases e1 <;> cases e2 <;>
    simp [Recorder.init, Recorder.start, HDF5State.init,
      HDF5State.start_experiment, CSVState.init, CSVState.start_experiment,
      InvR, InvH, InvC]

theorem InvR_runProcess (msgs : List MsgQ) (r : Recorder) (h : InvR r) :
    InvR (r.runProcess msgs).1 := by
  induction msgs generalizing r with
  | nil => exact h
  | cons m ms ih =>
      simp only [Recorder.runProcess]
      exact ih _ (InvR_process r m h)

theorem HDF5State.hdf5_close_fields (hw : HDF5State) :
    (hw.close).1.trial_number = hw.trial_number ∧
    (hw.close).1.recording = hw.recording ∧
    (hw.close).1.groups = hw.groups := by
  cases hfo : hw.fileOpen <;> simp [HDF5State.close, hfo]

theorem CSVState.csv_close_fields (cw : CSVState) :
    (cw.close).1.trial_number = cw.trial_number ∧
    (cw.close).1.rows = cw.rows := by
  cases hfo : cw.fileOpen <;> simp [CSVState.close, hfo]

theorem InvR_close_steps (X : Recorder) (hX : InvR X)
    (hta : X.trial_active = false) :
    InvR (let he :=
            match X.hdf5 with
            | some hw => ({ X with hdf5 := some (hw.close).1 }, (hw.close).2)
            | none => (X, ([] : List Event))
          let ce :=
            match he.1.csv with
            | some cw => ({ he.1 with csv := some (cw.close).1 }, (cw.close).2)
            | none => (he.1, ([] : List Event))
          ce.1) := by
  obtain ⟨hh, hc⟩ := hX
  obtain ⟨h5f, csvf, ct, cs, ta, sc⟩ := X
  simp only at hta
  subst hta
  cases h5f with
  | some hw =>
      obtain ⟨hwi, hwcoup, hwfo⟩ := hh
      obtain ⟨c1, c2, c3⟩ := HDF5State.hdf5_close_fields hw
      have hinv : InvH (hw.close).1 := by
        unfold InvH at hwi ⊢
        rw [c1, c2, c3]
        exact hwi
      have hcoup : (hw.close).1.recording = false := by
        rw [c2]
        exact hwcoup
      have hfo : (hw.close).1.recording = true → (hw.close).1.fileOpen = true := by
        intro hcontra
        rw [hcoup] at hcontra
        exact absurd hcontra (by decide)
      cases csvf with
      | some cw =>
          obtain ⟨d1, d2⟩ := CSVState.csv_close_fields cw
          have hinvc : InvC (cw.close).1 := by
            unfold InvC at hc ⊢
            rw [d1, d2]
            exact hc
          exact ⟨⟨hinv, hcoup, hfo⟩, hinvc⟩
      | none => exact ⟨⟨hinv, hcoup, hfo⟩, trivial⟩
  | none =>
      cases csvf with
      | some cw =>
          obtain ⟨d1, d2⟩ := CSVState.csv_close_fields cw
          have hinvc : InvC (cw.close).1 := by
            unfold InvC at hc ⊢
            rw [d1, d2]
            exact hc
          exact ⟨trivial, hinvc⟩
      | none => exact ⟨trivial, trivial⟩

theorem InvR_stop (r : Recorder) (h : InvR r) : InvR (r.stop).1 := by
  have hre : InvR (if r.trial_active then r.end_trial false
      else (r, ([] : List Event))).1 := by
    cases hta : r.trial_active
    · simpa [hta] using h
    · simpa [hta] using InvR_end_trial r false h
  have hreta : (if r.trial_active then r.end_trial false
      else (r, ([] : List Event))).1.trial_active = false := by
    cases hta : r.trial_active
    · simp [hta]
    · simpa [hta] using end_trial_not_active r false
  simp only [Recorder.stop]
  exact InvR_close_steps _ hre hreta

theorem InvR_sink_numbering (r : Recorder) (h : InvR r) :
    (hdf5Groups r).map Group.trial = List.range' 1 (hdf5Groups r).length ∧
    (csvRows r).map CSVRow.trial = List.range' 1 (csvRows r).length := by
  obtain ⟨hh, hc⟩ := h
  obtain ⟨h5f, csvf, ct, cs, ta, sc⟩ := r
  constructor
  · cases h5f with
    | some hw => exact hh.1.2
    | none => rfl
  · cases csvf with
    | some cw => exact hc.2
    | none => rfl

/-- C9: over any incoming message trace, the trial numbers persisted by the
sinks — HDF5 trial group indices and the CSV `trial` column — are
`1, 2, 3, ...` in creation order, determined by the writers' own counters and
independent of the `trial_number` field of the incoming messages; this holds
at every point of the run and still after `stop`. -/
theorem C9_sink_trial_numbers (msgs : List MsgQ) :
    (hdf5Groups ((Recorder.init true true).start.runProcess msgs).1).map
        Group.trial =
      List.range' 1
        (hdf5Groups ((Recorder.init true true).start.runProcess msgs).1).length ∧
    (csvRows ((Recorder.init true true).start.runProcess msgs).1).map
        CSVRow.trial =
      List.range' 1
        (csvRows ((Recorder.init true true).start.runProcess msgs).1).length ∧
    (hdf5Groups (((Recorder.init true true).start.runProcess msgs).1.stop).1).map
        Group.trial =
      List.range' 1
        (hdf5Groups
          (((Recorder.init true true).start.runProcess msgs).1.stop).1).length ∧
    (csvRows (((Recorder.init true true).start.runProcess msgs).1.stop).1).map
        CSVRow.trial =
      List.range' 1
        (csvRows
          (((Recorder.init true true).start.runProcess msgs).1.stop).1).length := by
  have h0 := InvR_init_start true true
  have h1 := InvR_runProcess msgs _ h0
  have h2 := InvR_stop _ h1
  obtain ⟨a1, a2⟩ := InvR_sink_numbering _ h1
  obtain ⟨b1, b2⟩ := InvR_sink_numbering _ h2
  exact ⟨a1, a2, b1, b2⟩

end UHTP
